import Mathlib

/-
Shallow embedding of fs_mgr/libsnapshot/cow_reader.cpp: the COW log reader of
libsnapshot.  Machine integers are modelled as Nat; where 64-bit wraparound can
matter (GetRawBytes) the arithmetic is written with an explicit modulus.
Fallible paths return Except; the distinct early-return sites of the C++ code
are mapped to distinct error constructors.
-/

/-
Modelled from the spec: the constants below live in cow_format.h / cow_reader.h,
which are not part of this repository snapshot.  The spec fixes that the reader
accepts a single magic number, version pair, header size and footer size, that
records and the header/footer are fixed-size structures, and that Copy, Replace,
Zero, Label and inline-Footer are the operation type tags and none/gz/brotli the
compression tags.  The concrete numbers match the packed struct layout the spec
describes; no claim depends on their exact values.
-/

def kCowMagicNumber : Nat := 0x436f77

def kCowVersionMajor : Nat := 1

def kCowVersionMinor : Nat := 0

def kCowCopyOp : Nat := 1

def kCowReplaceOp : Nat := 2

def kCowZeroOp : Nat := 3

def kCowLabelOp : Nat := 4

def kCowFooterOp : Nat := 65535

def kCowCompressNone : Nat := 0

def kCowCompressGz : Nat := 1

def kCowCompressBrotli : Nat := 2

def sizeofCowHeader : Nat := 28

def sizeofCowOperation : Nat := 22

def sizeofCowFooterData : Nat := 64

def sizeofCowFooter : Nat := 82

/-- The fixed-size on-disk header (CowHeader in cow_format.h). -/
structure CowHeader where
  magic : Nat
  major_version : Nat
  minor_version : Nat
  header_size : Nat
  footer_size : Nat
  block_size : Nat
  num_merge_ops : Nat
deriving DecidableEq, Repr

/-- The metadata part of the footer (CowFooterOperation): type tag, operation
count and total ops byte size. -/
structure CowFooterOperation where
  type : Nat
  num_ops : Nat
  ops_size : Nat
deriving DecidableEq, Repr

/-- The data part of the footer (CowFooterData): two 32-byte digests, modelled
as lists of byte values. -/
structure CowFooterData where
  ops_checksum : List Nat
  footer_checksum : List Nat
deriving DecidableEq, Repr

/-- The full footer (CowFooter): metadata part plus data part. -/
structure CowFooter where
  op : CowFooterOperation
  data : CowFooterData
deriving DecidableEq, Repr

/-- A fixed-size operation record (CowOperation): type tag, compression tag,
payload length and the dual-purpose source field (source block for Copy, label
value for Label). -/
structure CowOperation where
  type : Nat
  compression : Nat
  data_length : Nat
  source : Nat
deriving DecidableEq, Repr

/-- Modelled from the spec: GetNextOpOffset lives in cow_format.cpp, which is
not part of this repository snapshot.  The spec states that each record is
immediately followed by its payload bytes, the length given by the record, and
that a Label or inline-Footer record has no payload; after reading a record the
parser advances the file position past that payload. -/
def GetNextOpOffset (op : CowOperation) : Nat :=
  if op.type = kCowLabelOp ∨ op.type = kCowFooterOp then 0 else op.data_length

/-- A 32-byte buffer of zeroes: the memset csum buffer of ParseOps. -/
def zero32 : List Nat := List.replicate 32 0

/-- The SHA256 helper of cow_reader.cpp (lines 43-50): its whole body is
compiled out, so it returns leaving the output buffer untouched.  Modelled as
the identity on the output buffer. -/
def SHA256 (out : List Nat) : List Nat := out

/-- Errors: each constructor corresponds to one early-return site of
cow_reader.cpp.  checkAbort is the CHECK macro aborting; oobRead stands for the
trimming walk dereferencing ops_buffer past its end, which in the C++ code is
an out-of-bounds read (undefined behavior), made an explicit outcome here. -/
inductive ParseError
  | headerReadFailed
  | magicMismatch
  | headerSizeMismatch
  | footerSizeMismatch
  | versionMismatch
  | footerReadFailed
  | readOpFailed
  | numOpsMismatch
  | opsSizeMismatch
  | opsChecksumMismatch
  | opsChecksumMismatch2
  | checkAbort
  | oobRead
deriving DecidableEq, Repr

/-- The mutable state threaded through the op-scan loop of ParseOps
(lines 121-169): the pending label, the committed label watermark, the footer
and its presence flag, and the ops vector accumulated so far. -/
structure ScanState where
  next_last_label : Option Nat
  last_label : Nat
  has_last_label : Bool
  footer : CowFooter
  has_footer : Bool
  ops : List CowOperation
deriving DecidableEq, Repr

/-- The state the scan starts from: ParseOps begins with no pending label,
last_label_ zero-initialized by the constructor, has_last_label_ false, and the
footer candidate read (or not) by Parse from the trailing region. -/
def initScanState (footer0 : CowFooter) (hasFooter0 : Bool) : ScanState :=
  { next_last_label := none
    last_label := 0
    has_last_label := false
    footer := footer0
    has_footer := hasFooter0
    ops := [] }

/-- A parsed COW file, as seen by the reader.  recs is the decode of the op
region: the sequence of fixed-size records the parser finds at the successive
positions it visits, starting just past the header (a record is listed only if
it lies wholly before end-of-file, so running out of list models ReadFully
failing at EOF).  fdSize is the file size; trailingFooter is the decode of the
last footer-size bytes; inlineData is the decode of the footer-data bytes that
follow an inline footer record, read at lines 160. -/
structure CowFileModel where
  recs : List CowOperation
  fdSize : Nat
  trailingFooter : CowFooter
  inlineData : CowFooterData
deriving DecidableEq, Repr

/-- One iteration of the op-scan loop body (lines 130-168), after the record
has been successfully read: append the record to ops_buffer, promote a pending
label, then dispatch on the type tag.  ri is the byte reinterpretation
performed by the memcpy at line 157 (the layout of CowFooterOperation inside a
CowOperation record is fixed by cow_format.h, which is not in this snapshot, so
it is kept as a parameter).  dataReadable tells whether the ReadFully of the
footer data part at line 160 succeeds.  Returns the new state and the break
flag. -/
def scanBody (ri : CowOperation → CowFooterOperation) (inlineData : CowFooterData)
    (dataReadable : Bool) (r : CowOperation) (st : ScanState) : ScanState × Bool :=
  let st1 : ScanState := { st with ops := st.ops ++ [r] }
  let st2 : ScanState :=
    match st1.next_last_label with
    | some v => { st1 with last_label := v, has_last_label := true }
    | none => st1
  if r.type = kCowLabelOp then
    if st2.has_footer then
      ({ st2 with has_last_label := true, last_label := r.source }, false)
    else
      ({ st2 with next_last_label := some r.source }, false)
  else if r.type = kCowFooterOp then
    let st3 : ScanState := { st2 with footer := { op := ri r, data := st2.footer.data } }
    if dataReadable then
      ({ st3 with
          footer := { op := st3.footer.op, data := inlineData }
          has_footer := true
          has_last_label := st3.next_last_label.isSome || st3.has_last_label
          last_label := st3.next_last_label.getD st3.last_label }, true)
    else
      (st3, true)
  else
    (st2, false)

/-- The op-scan loop of ParseOps (lines 129-169): while the position is before
the last possible non-footer position, read a record, seek past its payload,
and run the loop body.  Running out of records while the guard still holds is
ReadFully failing (return false, line 134). -/
def scanOps (ri : CowOperation → CowFooterOperation) (inlineData : CowFooterData)
    (fdSize lastPos : Nat) :
    List CowOperation → Nat → ScanState → Except ParseError ScanState
  | [], pos, st => if pos < lastPos then .error .readOpFailed else .ok st
  | r :: rest, pos, st =>
    if pos < lastPos then
      let posNext := pos + sizeofCowOperation + GetNextOpOffset r
      let out := scanBody ri inlineData (decide (posNext + sizeofCowFooterData ≤ fdSize)) r st
      if out.2 then .ok out.1 else scanOps ri inlineData fdSize lastPos rest posNext out.1
    else .ok st

/-- The footer integrity checks of ParseOps (lines 171-192), run when a footer
is present: the op count and ops-size comparisons, then the two digest
comparisons.  The csum buffer is zeroed; both SHA256 calls are compiled out, so
the first leaves footer_checksum untouched and the second leaves csum zeroed,
and both memcmp calls compare the zero buffer against the stored ops_checksum. -/
def footerIntegrityChecks (footer : CowFooter) (ops : List CowOperation) :
    Except ParseError Unit :=
  if ops.length ≠ footer.op.num_ops then .error .numOpsMismatch
  else if ops.length * sizeofCowOperation ≠ footer.op.ops_size then .error .opsSizeMismatch
  else
    let csum := zero32
    let fdata : CowFooterData :=
      { footer.data with footer_checksum := SHA256 footer.data.footer_checksum }
    if csum ≠ fdata.ops_checksum then .error .opsChecksumMismatch
    else
      let csum2 := SHA256 csum
      if csum2 ≠ fdata.ops_checksum then .error .opsChecksumMismatch2
      else .ok ()

/-- The merge-progress walk of ParseOps (lines 203-211): starting at index 0,
classify each record, counting Label/Footer records as metadata and decrementing
merge_ops on real records, until merge_ops reaches zero.  Walking past the end
of the vector is an out-of-bounds read in the C++ code; here it yields none.
The returned value is the final metadata_ops count. -/
def trimWalk : List CowOperation → Nat → Nat → Option Nat
  | _, 0, metadataOps => some metadataOps
  | [], Nat.succ _, _ => none
  | r :: rest, Nat.succ m, metadataOps =>
    if r.type = kCowLabelOp ∨ r.type = kCowFooterOp then
      trimWalk rest (Nat.succ m) (metadataOps + 1)
    else
      trimWalk rest m metadataOps

/-- The merge-progress trimming of ParseOps (lines 197-214): when num_merge_ops
is positive, CHECK that the vector holds at least that many records (of any
kind), walk, then erase the walked prefix of length num_merge_ops +
metadata_ops. -/
def trimOps (numMergeOps : Nat) (ops : List CowOperation) :
    Except ParseError (List CowOperation) :=
  if numMergeOps = 0 then .ok ops
  else if ops.length < numMergeOps then .error .checkAbort
  else
    match trimWalk ops numMergeOps 0 with
    | none => .error .oobRead
    | some metadataOps => .ok (ops.drop (numMergeOps + metadataOps))

/-- The result of a successful parse: the state CowReader holds afterwards. -/
structure ParseResult where
  header : CowHeader
  ops : List CowOperation
  footer : CowFooter
  has_footer : Bool
  last_label : Nat
  has_last_label : Bool
deriving DecidableEq, Repr

namespace CowReader

/-- The last possible non-footer position (line 126): the file size minus the
footer size when a footer is present, minus one record size otherwise. -/
def lastPosOf (fdSize : Nat) (hasFooter0 : Bool) : Nat :=
  fdSize - (if hasFooter0 then sizeofCowFooter else sizeofCowOperation)

/-- The footer integrity checks as guarded in ParseOps (line 174): run only
when a footer is present; the footer-absent path only logs (line 194). -/
def footerChecksIfPresent (st : ScanState) : Except ParseError Unit :=
  if st.has_footer = true then footerIntegrityChecks st.footer st.ops else .ok ()

/-- CowReader::ParseOps (lines 115-218): scan the op region from just past the
header up to the last possible non-footer position, then run the footer
integrity checks when a footer is present, then apply merge-progress
trimming. -/
def ParseOps (ri : CowOperation → CowFooterOperation) (file : CowFileModel)
    (header : CowHeader) (footer0 : CowFooter) (hasFooter0 : Bool) :
    Except ParseError ParseResult :=
  match scanOps ri file.inlineData file.fdSize (lastPosOf file.fdSize hasFooter0)
      file.recs sizeofCowHeader (initScanState footer0 hasFooter0) with
  | .error e => .error e
  | .ok st =>
    match footerChecksIfPresent st with
    | .error e => .error e
    | .ok _ =>
      match trimOps header.num_merge_ops st.ops with
      | .error e => .error e
      | .ok trimmed =>
        .ok { header := header
              ops := trimmed
              footer := st.footer
              has_footer := st.has_footer
              last_label := st.last_label
              has_last_label := st.has_last_label }

/-- The header validation of CowReader::Parse (lines 76-100): magic, header
size, footer size, then major/minor version, each mismatch a distinct fatal
error. -/
def validateHeader (h : CowHeader) : Except ParseError Unit :=
  if h.magic ≠ kCowMagicNumber then .error .magicMismatch
  else if h.header_size ≠ sizeofCowHeader then .error .headerSizeMismatch
  else if h.footer_size ≠ sizeofCowFooter then .error .footerSizeMismatch
  else if h.major_version ≠ kCowVersionMajor ∨ h.minor_version ≠ kCowVersionMinor then
    .error .versionMismatch
  else .ok ()

/-- CowReader::Parse (lines 57-113): read the header (fails when the file is
shorter than a header), validate it, read the trailing footer region (fails
when the file is shorter than a footer), mark the footer present when its type
tag is the footer tag, then parse the ops. -/
def Parse (ri : CowOperation → CowFooterOperation) (file : CowFileModel)
    (header : CowHeader) : Except ParseError ParseResult :=
  if file.fdSize < sizeofCowHeader then .error .headerReadFailed
  else
    match validateHeader header with
    | .error e => .error e
    | .ok _ =>
      if file.fdSize < sizeofCowFooter then .error .footerReadFailed
      else
        ParseOps ri file header file.trailingFooter
          (decide (file.trailingFooter.op.type = kCowFooterOp))

/-- CowReader::GetHeader (lines 220-223): returns the header read at parse
time, unchanged. -/
def GetHeader (res : ParseResult) : CowHeader := res.header

/-- CowReader::GetFooter (lines 225-229): the footer, when present. -/
def GetFooter (res : ParseResult) : Option CowFooter :=
  if res.has_footer then some res.footer else none

/-- CowReader::GetLastLabel (lines 231-235): the committed label watermark,
when present. -/
def GetLastLabel (res : ParseResult) : Option Nat :=
  if res.has_last_label then some res.last_label else none

end CowReader

/-- The committed label watermark held in a scan state, as an optional value. -/
def committedOf (st : ScanState) : Option Nat :=
  if st.has_last_label then some st.last_label else none

/-- The source value of the last Label record in a list, when one exists. -/
def lastLabelIn (l : List CowOperation) : Option Nat :=
  ((l.filter fun r => r.type == kCowLabelOp).getLast?).map CowOperation.source

/-- Whether a record is one of the two metadata tags the trimming walk counts
separately (lines 205-206). -/
def isMetadataOp (r : CowOperation) : Bool :=
  r.type == kCowLabelOp || r.type == kCowFooterOp

/-- The number of real (mergeable) operations in a list. -/
def countReal (l : List CowOperation) : Nat :=
  (l.filter fun r => !(isMetadataOp r)).length

/-- The number of Label/Footer metadata records in a list. -/
def countMeta (l : List CowOperation) : Nat :=
  (l.filter isMetadataOp).length

/-- The length of the shortest prefix of l containing k real operations
(meaningful when l holds at least k real operations). -/
def shortestRealRunLen : List CowOperation → Nat → Nat
  | _, 0 => 0
  | [], Nat.succ _ => 0
  | r :: rest, Nat.succ k =>
    if isMetadataOp r then 1 + shortestRealRunLen rest (Nat.succ k)
    else 1 + shortestRealRunLen rest k

/-- Written from the words of the spec, for comparison against the code: the
total payload-plus-header byte size of a list of operations, counting for each
record its fixed record size plus its payload length. -/
def specPayloadPlusHeaderSize (l : List CowOperation) : Nat :=
  l.foldl (fun a r => a + sizeofCowOperation + GetNextOpOffset r) 0

/-- Unsigned 64-bit subtraction, as computed by the C++ expression
fd_size_ - sizeof(footer_) (valid for b at most 2 ^ 64). -/
def usub64 (a b : Nat) : Nat := (a + 2 ^ 64 - b) % 2 ^ 64

/-- Unsigned 64-bit addition, as computed by the C++ expression offset + len. -/
def uadd64 (a b : Nat) : Nat := (a + b) % 2 ^ 64

/-- The outcome of CowReader::GetRawBytes, one constructor per return site:
the bounds-validation failure at line 314, the lseek failure, the read failure,
and success with the byte count actually read. -/
inductive RawBytesOutcome
  | boundsError
  | seekFailed
  | readFailed
  | ok (n : Nat)
deriving DecidableEq, Repr

/-- CowReader::GetRawBytes (lines 309-327): validate the requested range before
any I/O, then seek and read.  The underlying file behavior is abstracted by
seekOk and readResult.  The second component records whether any I/O (seek or
read) was performed on the file. -/
def GetRawBytes (fdSize offset len : Nat) (seekOk : Bool) (readResult : Option Nat) :
    RawBytesOutcome × Bool :=
  if offset < sizeofCowHeader ∨ usub64 fdSize sizeofCowFooter ≤ offset ∨ fdSize ≤ len ∨
      usub64 fdSize sizeofCowFooter < uadd64 offset len then
    (.boundsError, false)
  else if seekOk = false then (.seekFailed, true)
  else
    match readResult with
    | none => (.readFailed, true)
    | some n => (.ok n, true)

/-- The three decompression capabilities of cow_decompress (external to this
core). -/
inductive DecompressorKind
  | uncompressed
  | gz
  | brotli
deriving DecidableEq, Repr

/-- The compression-tag dispatch of CowReader::ReadData (lines 361-374): the
switch over op.compression, returning none on the default branch. -/
def selectDecompressor (compression : Nat) : Option DecompressorKind :=
  if compression = kCowCompressNone then some .uncompressed
  else if compression = kCowCompressGz then some .gz
  else if compression = kCowCompressBrotli then some .brotli
  else none

/-- The observable trace of one ReadData call: whether it returned true, how
many Read calls were made on the payload stream, and which decompressor was
selected. -/
structure ReadDataTrace where
  ok : Bool
  streamReads : Nat
  used : Option DecompressorKind
deriving DecidableEq, Repr

namespace CowReader

/-- CowReader::ReadData (lines 359-380): dispatch on the compression tag; on an
unknown tag return false before the payload stream is even constructed.
Otherwise the selected decompressor drives the stream; its behavior (number of
stream reads performed and final result) is the external capability decompress. -/
def ReadData (decompress : DecompressorKind → Nat → Nat × Bool) (blockSize : Nat)
    (op : CowOperation) : ReadDataTrace :=
  match selectDecompressor op.compression with
  | none => { ok := false, streamReads := 0, used := none }
  | some k =>
    let r := decompress k blockSize
    { ok := r.2, streamReads := r.1, used := some k }

end CowReader

/-- The forward op iterator (CowOpIter, lines 237-267): a shared view of the
parsed sequence plus a cursor.  The iterator is only ever advanced while not
Done, so the cursor never exceeds the length and the end comparison of Done is
the same as the inequality used here. -/
structure CowOpIter where
  ops : List CowOperation
  cursor : Nat
deriving DecidableEq, Repr

/-- CowOpIter::Done (lines 255-257). -/
def CowOpIter.Done (it : CowOpIter) : Bool := it.ops.length ≤ it.cursor

/-- CowOpIter::Get (lines 264-267): CHECK(!Done()) then dereference; the CHECK
abort is modelled as none. -/
def CowOpIter.Get (it : CowOpIter) : Option CowOperation :=
  if it.Done then none else it.ops[it.cursor]?

/-- CowOpIter::Next (lines 259-262): CHECK(!Done()) then step the cursor. -/
def CowOpIter.Next (it : CowOpIter) : Option CowOpIter :=
  if it.Done then none else some { it with cursor := it.cursor + 1 }

/-- The reverse op iterator (CowOpReverseIter, lines 269-299): the same shared
sequence, traversed from the back via a reverse cursor. -/
structure CowOpReverseIter where
  ops : List CowOperation
  cursor : Nat
deriving DecidableEq, Repr

/-- CowOpReverseIter::Done (lines 287-289). -/
def CowOpReverseIter.Done (it : CowOpReverseIter) : Bool := it.ops.length ≤ it.cursor

/-- CowOpReverseIter::Get (lines 296-299): the element the reverse cursor
denotes, CHECK(!Done()) modelled as none. -/
def CowOpReverseIter.Get (it : CowOpReverseIter) : Option CowOperation :=
  if it.Done then none else it.ops[it.ops.length - 1 - it.cursor]?

/-- CowOpReverseIter::Next (lines 291-294). -/
def CowOpReverseIter.Next (it : CowOpReverseIter) : Option CowOpReverseIter :=
  if it.Done then none else some { it with cursor := it.cursor + 1 }

namespace CowReader

/-- CowReader::GetOpIter (lines 301-303): a fresh forward iterator over the
shared parsed sequence. -/
def GetOpIter (res : ParseResult) : CowOpIter := { ops := res.ops, cursor := 0 }

/-- CowReader::GetRevOpIter (lines 305-307). -/
def GetRevOpIter (res : ParseResult) : CowOpReverseIter := { ops := res.ops, cursor := 0 }

end CowReader

/-- Fully draining a forward iterator: repeatedly Get then Next until Done
(fueled by the remaining distance, which suffices). -/
def CowOpIter.drainAux : Nat → CowOpIter → List CowOperation
  | 0, _ => []
  | Nat.succ fuel, it =>
    match it.Get, it.Next with
    | some x, some it2 => x :: CowOpIter.drainAux fuel it2
    | _, _ => []

/-- The list of elements a full forward drain visits, in order. -/
def CowOpIter.drain (it : CowOpIter) : List CowOperation :=
  CowOpIter.drainAux it.ops.length it

/-- Fully draining a reverse iterator. -/
def CowOpReverseIter.drainAux : Nat → CowOpReverseIter → List CowOperation
  | 0, _ => []
  | Nat.succ fuel, it =>
    match it.Get, it.Next with
    | some x, some it2 => x :: CowOpReverseIter.drainAux fuel it2
    | _, _ => []

/-- The list of elements a full reverse drain visits, in order. -/
def CowOpReverseIter.drain (it : CowOpReverseIter) : List CowOperation :=
  CowOpReverseIter.drainAux it.ops.length it

deriving instance DecidableEq for Except

/-
Concrete inputs used by witnesses and counterexamples.
-/

/-- An all-zero footer data part, as the disabled-digest writer would store. -/
def exZData : CowFooterData := { ops_checksum := zero32, footer_checksum := zero32 }

/-- A 32-byte buffer of ones: a nonzero stored digest. -/
def one32 : List Nat := List.replicate 32 1

/-- A trailing footer region that does not decode as a footer (type tag 0). -/
def exDummyFooter : CowFooter :=
  { op := { type := 0, num_ops := 0, ops_size := 0 }, data := exZData }

/-- A Copy operation record. -/
def exCopy : CowOperation :=
  { type := kCowCopyOp, compression := 0, data_length := 0, source := 5 }

/-- A Label operation record with label value 7. -/
def exLabel7 : CowOperation :=
  { type := kCowLabelOp, compression := 0, data_length := 0, source := 7 }

/-- An inline footer record. -/
def exFooterRec : CowOperation :=
  { type := kCowFooterOp, compression := 0, data_length := 0, source := 0 }

/-- A Replace operation record with a 4096-byte payload. -/
def exReplace : CowOperation :=
  { type := kCowReplaceOp, compression := 0, data_length := 4096, source := 50 }

/-- A header passing every validation check, with num_merge_ops zero. -/
def exHeader : CowHeader :=
  { magic := kCowMagicNumber, major_version := 1, minor_version := 0, header_size := 28,
    footer_size := 82, block_size := 4096, num_merge_ops := 0 }

/-- A byte reinterpretation under which an inline footer record declares one op
of total record size 22. -/
def exRi1 : CowOperation → CowFooterOperation :=
  fun r => { type := r.type, num_ops := 1, ops_size := 22 }

/-- A byte reinterpretation under which an inline footer record declares two
ops of total record size 44. -/
def exRi2 : CowOperation → CowFooterOperation :=
  fun r => { type := r.type, num_ops := 2, ops_size := 44 }

/-- A file with no trailing footer whose op region holds a Copy record followed
by an inline footer record with readable footer data. -/
def exFileC2 : CowFileModel :=
  { recs := [exCopy, exFooterRec], fdSize := 200, trailingFooter := exDummyFooter,
    inlineData := exZData }

/-- The parse result the code produces on exFileC2 under exRi2: the inline
footer record remains in the returned op sequence. -/
def exResC2 : ParseResult :=
  { header := exHeader, ops := [exCopy, exFooterRec],
    footer := { op := { type := kCowFooterOp, num_ops := 2, ops_size := 44 }, data := exZData },
    has_footer := true, last_label := 0, has_last_label := false }

/-- A trusted trailing footer declaring one op of total record size 22, with
all-zero stored digests. -/
def exFooterC5 : CowFooter :=
  { op := { type := kCowFooterOp, num_ops := 1, ops_size := 22 }, data := exZData }

/-- A cleanly finalized file: header, one Replace record plus its 4096-byte
payload, trailing footer (28 + 22 + 4096 + 82 bytes). -/
def exFileC5 : CowFileModel :=
  { recs := [exReplace], fdSize := 4228, trailingFooter := exFooterC5, inlineData := exZData }

/-- The parse result the code produces on exFileC5. -/
def exResC5 : ParseResult :=
  { header := exHeader, ops := [exReplace], footer := exFooterC5, has_footer := true,
    last_label := 0, has_last_label := false }

/-- The same trailing footer but with a nonzero stored ops digest. -/
def exFooterC6 : CowFooter :=
  { op := { type := kCowFooterOp, num_ops := 1, ops_size := 22 },
    data := { ops_checksum := one32, footer_checksum := zero32 } }

/-- The same cleanly finalized file as exFileC5 but whose footer stores a
nonzero ops digest. -/
def exFileC6 : CowFileModel :=
  { recs := [exReplace], fdSize := 4228, trailingFooter := exFooterC6, inlineData := exZData }

/-- The scan state after scanning a Copy record then a Label record with no
footer: the label is still pending, the committed watermark absent. -/
def exScanOut : ScanState :=
  { next_last_label := some 7, last_label := 0, has_last_label := false,
    footer := exDummyFooter, has_footer := false, ops := [exCopy, exLabel7] }

/-- A mid-scan state with a trusted footer present and no label seen yet. -/
def exStFooter : ScanState :=
  { next_last_label := none, last_label := 0, has_last_label := false,
    footer := exFooterC5, has_footer := true, ops := [exCopy] }

/-- The op sequence [Label, Copy, Copy, Label, Copy]. -/
def exOpsC4 : List CowOperation := [exLabel7, exCopy, exCopy, exLabel7, exCopy]

/-- The op sequence [Label, Copy]: one real op below two merge ops. -/
def exOpsC3 : List CowOperation := [exLabel7, exCopy]

/-- A decompression capability that reads nothing and reports success. -/
def exDecompress : DecompressorKind → Nat → Nat × Bool := fun _ _ => (0, true)

/-- An operation whose compression tag is none of the three known tags. -/
def exOpBadCodec : CowOperation :=
  { type := kCowReplaceOp, compression := 7, data_length := 10, source := 100 }

/-- The scan state after scanning exFileC5 (one Replace record, trusted
trailing footer, no labels). -/
def exScanC5 : ScanState :=
  { next_last_label := none, last_label := 0, has_last_label := false,
    footer := exFooterC5, has_footer := true, ops := [exReplace] }

/-
Helper lemmas.
-/

lemma ParseOps_ok_header (ri : CowOperation → CowFooterOperation) (file : CowFileModel)
    (h : CowHeader) (f0 : CowFooter) (hf : Bool) (res : ParseResult)
    (hres : CowReader.ParseOps ri file h f0 hf = .ok res) : res.header = h := by
  unfold CowReader.ParseOps at hres
  split at hres
  · exact Except.noConfusion hres
  · split at hres
    · exact Except.noConfusion hres
    · split at hres
      · exact Except.noConfusion hres
      · injection hres with h2
        rw [← h2]

/-
Claim theorems.
-/

/-- C8: parse fails with a distinct format error whenever the header's magic,
header size, footer size, or major/minor version differs from the supported
constants; a header matching all of them passes validation; and after a
successful parse the header accessor returns the input header unchanged. -/
theorem C8_header_validation :
    (∀ h : CowHeader, CowReader.validateHeader h = .ok () ↔
        (h.magic = kCowMagicNumber ∧ h.header_size = sizeofCowHeader ∧
         h.footer_size = sizeofCowFooter ∧ h.major_version = kCowVersionMajor ∧
         h.minor_version = kCowVersionMinor)) ∧
    (∀ (ri : CowOperation → CowFooterOperation) (file : CowFileModel) (h : CowHeader)
        (res : ParseResult), CowReader.Parse ri file h = .ok res →
        CowReader.GetHeader res = h) := by
  constructor
  · intro h
    unfold CowReader.validateHeader
    split_ifs with h1 h2 h3 h4
    · constructor
      · intro hx; exact hx.elim
      · intro hx; exact absurd hx.1 h1
    · constructor
      · intro hx; exact hx.elim
      · intro hx; exact absurd hx.2.1 h2
    · constructor
      · intro hx; exact hx.elim
      · intro hx; exact absurd hx.2.2.1 h3
    · constructor
      · intro hx; exact hx.elim
      · intro hx
        rcases h4 with h4 | h4
        · exact absurd hx.2.2.2.1 h4
        · exact absurd hx.2.2.2.2 h4
    · push_neg at h1 h2 h3 h4
      exact iff_of_true rfl ⟨h1, h2, h3, h4.1, h4.2⟩
  · intro ri file h res hres
    unfold CowReader.Parse at hres
    split at hres
    · exact Except.noConfusion hres
    · split at hres
      · exact Except.noConfusion hres
      · split at hres
        · exact Except.noConfusion hres
        · exact ParseOps_ok_header ri file h _ _ res hres

theorem C8_witness :
    CowReader.validateHeader exHeader = .ok () ∧ CowReader.GetHeader exResC5 = exHeader :=
  ⟨(C8_header_validation.1 exHeader).mpr (by decide),
   C8_header_validation.2 exRi1 exFileC5 exHeader exResC5 (by decide)⟩

/-- C7: a GetRawBytes request whose offset lies inside the header region, or
whose range extends into or past the trailing footer region, or whose
offset+len overflows 64 bits, fails at the bounds validation (an outcome
distinct from the I/O failures) and performs no I/O, whatever the underlying
file would do.  The file size is bounded by 2^63 because it comes from lseek
(an off_t). -/
theorem C7_raw_bytes_bounds (fdSize offset len : Nat) (seekOk : Bool)
    (readResult : Option Nat) (h63 : fdSize ≤ 2 ^ 63) (hfoot : sizeofCowFooter ≤ fdSize)
    (hoff : offset < 2 ^ 64) (hlen : len < 2 ^ 64)
    (hbad : offset < sizeofCowHeader ∨ fdSize - sizeofCowFooter < offset + len ∨
      2 ^ 64 ≤ offset + len) :
    GetRawBytes fdSize offset len seekOk readResult = (.boundsError, false) := by
  have h64 : (2 : Nat) ^ 64 = 18446744073709551616 := by norm_num
  have h63e : (2 : Nat) ^ 63 = 9223372036854775808 := by norm_num
  have hfoot' : 82 ≤ fdSize := hfoot
  have h63' : fdSize ≤ 9223372036854775808 := by rw [h63e] at h63; exact h63
  have hoff' : offset < 18446744073709551616 := by rw [h64] at hoff; exact hoff
  have hlen' : len < 18446744073709551616 := by rw [h64] at hlen; exact hlen
  have hbad' : offset < 28 ∨ fdSize - 82 < offset + len ∨
      18446744073709551616 ≤ offset + len := by
    simp only [sizeofCowHeader, sizeofCowFooter, h64] at hbad
    exact hbad
  have hguard : offset < sizeofCowHeader ∨ usub64 fdSize sizeofCowFooter ≤ offset ∨
      fdSize ≤ len ∨ usub64 fdSize sizeofCowFooter < uadd64 offset len := by
    simp only [usub64, uadd64, sizeofCowFooter, sizeofCowHeader, h64]
    omega
  unfold GetRawBytes
  rw [if_pos hguard]

theorem C7_witness :
    GetRawBytes 200 5 3 true (some 3) = (.boundsError, false) :=
  C7_raw_bytes_bounds 200 5 3 true (some 3) (by norm_num) (by norm_num [sizeofCowFooter])
    (by norm_num) (by norm_num) (Or.inl (by norm_num [sizeofCowHeader]))

/-- C9: decoding an operation whose compression tag is none of the three known
tags fails before the payload stream performs any read, whatever the
decompression capability would do, and an unknown tag is never dispatched to
the uncompressed decompressor. -/
theorem C9_unknown_codec (decompress : DecompressorKind → Nat → Nat × Bool)
    (blockSize : Nat) (op : CowOperation)
    (h0 : op.compression ≠ kCowCompressNone) (h1 : op.compression ≠ kCowCompressGz)
    (h2 : op.compression ≠ kCowCompressBrotli) :
    CowReader.ReadData decompress blockSize op =
      { ok := false, streamReads := 0, used := none } ∧
    selectDecompressor op.compression = none ∧
    (∀ (d2 : DecompressorKind → Nat → Nat × Bool) (bs2 : Nat) (op2 : CowOperation),
      (CowReader.ReadData d2 bs2 op2).used = some DecompressorKind.uncompressed →
      op2.compression = kCowCompressNone) := by
  have hsel : selectDecompressor op.compression = none := by
    unfold selectDecompressor
    rw [if_neg h0, if_neg h1, if_neg h2]
  refine ⟨?_, hsel, ?_⟩
  · unfold CowReader.ReadData
    rw [hsel]
  · intro d2 bs2 op2 hused
    by_cases hc : op2.compression = kCowCompressNone
    · exact hc
    · exfalso
      unfold CowReader.ReadData selectDecompressor at hused
      rw [if_neg hc] at hused
      by_cases hg : op2.compression = kCowCompressGz
      · rw [if_pos hg] at hused
        exact DecompressorKind.noConfusion (Option.some.inj hused)
      · rw [if_neg hg] at hused
        by_cases hb : op2.compression = kCowCompressBrotli
        · rw [if_pos hb] at hused
          exact DecompressorKind.noConfusion (Option.some.inj hused)
        · rw [if_neg hb] at hused
          exact Option.noConfusion hused

theorem C9_witness :
    CowReader.ReadData exDecompress 4096 exOpBadCodec =
      { ok := false, streamReads := 0, used := none } :=
  (C9_unknown_codec exDecompress 4096 exOpBadCodec (by decide) (by decide) (by decide)).1

/-- C2: evaluation of ParseOps at the failing input.  On a file with no
trailing footer holding a Copy record followed by an inline footer record
(readable data part), the inline footer record stays in ops_buffer: when the
footer declares num_ops = 1 (the one real op, as the claim expects), the count
check compares 2 against 1 and parse fails; when the footer declares num_ops =
2 and ops_size = 44 (counting the footer record itself), parse succeeds and
the returned op sequence still contains the inline footer record. -/
theorem C2_inline_footer_divergence :
    CowReader.ParseOps exRi1 exFileC2 exHeader exDummyFooter false =
      .error .numOpsMismatch ∧
    CowReader.ParseOps exRi2 exFileC2 exHeader exDummyFooter false = .ok exResC2 ∧
    exResC2.ops = [exCopy, exFooterRec] ∧
    exFooterRec.type = kCowFooterOp ∧
    exResC2.has_footer = true ∧
    countReal [exCopy] = 1 := by decide

/-- C3: evaluation of the trimming phase at the failing input.  With parsed
sequence [Label, Copy] (one real operation) and num_merge_ops = 2, the CHECK
passes (it compares against the total record count, 2), the walk runs past the
end of the sequence (an out-of-bounds read), and no clean consistency failure
is produced. -/
theorem C3_merge_trim_divergence :
    trimOps 2 exOpsC3 = .error .oobRead ∧
    trimOps 2 exOpsC3 ≠ .error .checkAbort ∧
    ¬(exOpsC3.length < 2) ∧
    countReal exOpsC3 < 2 := by decide

/-- C5 counterexample: a cleanly finalized file with one Replace operation
carrying a 4096-byte payload and a footer declaring ops_size = 22 parses
successfully, although the total payload-plus-header byte size of the parsed
operations (4118) differs from the declared ops_size — so parse does not fail
when the payload-plus-header size mismatches, contradicting the claim. -/
theorem C5_counterexample :
    CowReader.Parse exRi1 exFileC5 exHeader = .ok exResC5 ∧
    exResC5.has_footer = true ∧
    specPayloadPlusHeaderSize exResC5.ops ≠ exResC5.footer.op.ops_size := by decide

/-- C6 counterexample: a cleanly finalized file whose footer passes the
num_ops and ops_size checks but stores a nonzero ops digest fails parse with a
digest mismatch — the digest comparisons are not vacuous, contradicting the
claim that they always succeed regardless of the stored checksum values. -/
theorem C6_counterexample :
    CowReader.Parse exRi1 exFileC6 exHeader = .error .opsChecksumMismatch ∧
    footerIntegrityChecks exFooterC6 [exReplace] ≠ .error .numOpsMismatch ∧
    footerIntegrityChecks exFooterC6 [exReplace] ≠ .error .opsSizeMismatch := by decide

lemma trimOps_zero (ops : List CowOperation) : trimOps 0 ops = .ok ops := by
  unfold trimOps
  simp

lemma footerChecks_ok_counts (f : CowFooter) (ops : List CowOperation) (u : Unit)
    (h : footerIntegrityChecks f ops = .ok u) :
    ops.length = f.op.num_ops ∧ ops.length * sizeofCowOperation = f.op.ops_size := by
  simp only [footerIntegrityChecks] at h
  split at h
  · exact Except.noConfusion h
  · split at h
    · exact Except.noConfusion h
    · rename_i h1 h2
      push_neg at h1 h2
      exact ⟨h1, h2⟩

lemma ParseOps_ok_counts (ri : CowOperation → CowFooterOperation) (file : CowFileModel)
    (hdr : CowHeader) (f0 : CowFooter) (hf : Bool) (res : ParseResult)
    (hk : hdr.num_merge_ops = 0)
    (hres : CowReader.ParseOps ri file hdr f0 hf = .ok res) (hfoot : res.has_footer = true) :
    res.ops.length = res.footer.op.num_ops ∧
    res.ops.length * sizeofCowOperation = res.footer.op.ops_size := by
  unfold CowReader.ParseOps at hres
  split at hres
  · exact Except.noConfusion hres
  · rename_i st hscan
    split at hres
    · exact Except.noConfusion hres
    · rename_i u hcheck
      split at hres
      · exact Except.noConfusion hres
      · rename_i trimmed htrim
        rw [hk, trimOps_zero] at htrim
        injection htrim with htrim
        injection hres with hres
        subst hres
        have hst : st.has_footer = true := hfoot
        have hck : footerIntegrityChecks st.footer st.ops = .ok u := by
          unfold CowReader.footerChecksIfPresent at hcheck
          rw [if_pos hst] at hcheck
          exact hcheck
        have hcounts := footerChecks_ok_counts st.footer st.ops u hck
        rw [htrim] at hcounts
        exact hcounts

/-- C5 counterexample shows the claim too strong; the amended statement: with a
footer present, parse passes the two count checks exactly when the parsed
record count equals the footer's num_ops and that count times the fixed record
size equals the footer's ops_size — the records' payload bytes are not part of
the size that is checked; and every successful parse with a footer satisfies
both equalities. -/
theorem C5_footer_count_size :
    (∀ (f : CowFooter) (ops : List CowOperation),
        (ops.length = f.op.num_ops ∧ ops.length * sizeofCowOperation = f.op.ops_size) ↔
        (footerIntegrityChecks f ops ≠ .error .numOpsMismatch ∧
         footerIntegrityChecks f ops ≠ .error .opsSizeMismatch)) ∧
    (∀ (ri : CowOperation → CowFooterOperation) (file : CowFileModel) (hdr : CowHeader)
        (f0 : CowFooter) (hf : Bool) (res : ParseResult), hdr.num_merge_ops = 0 →
        CowReader.ParseOps ri file hdr f0 hf = .ok res → res.has_footer = true →
        res.ops.length = res.footer.op.num_ops ∧
        res.ops.length * sizeofCowOperation = res.footer.op.ops_size) := by
  constructor
  · intro f ops
    constructor
    · rintro ⟨h1, h2⟩
      simp only [footerIntegrityChecks]
      rw [if_neg (fun hne => hne h1), if_neg (fun hne => hne h2)]
      constructor
      · split_ifs <;> simp
      · split_ifs <;> simp
    · rintro ⟨hn1, hn2⟩
      by_cases h1 : ops.length = f.op.num_ops
      · by_cases h2 : ops.length * sizeofCowOperation = f.op.ops_size
        · exact ⟨h1, h2⟩
        · exfalso
          apply hn2
          simp only [footerIntegrityChecks]
          rw [if_neg (fun hne => hne h1), if_pos h2]
      · exfalso
        apply hn1
        simp only [footerIntegrityChecks]
        rw [if_pos h1]
  · intro ri file hdr f0 hf res hk hres hfoot
    exact ParseOps_ok_counts ri file hdr f0 hf res hk hres hfoot

theorem C5_witness :
    exResC5.ops.length = exResC5.footer.op.num_ops ∧
    exResC5.ops.length * sizeofCowOperation = exResC5.footer.op.ops_size :=
  C5_footer_count_size.2 exRi1 exFileC5 exHeader exFooterC5 true exResC5 (by decide)
    (by decide) (by decide)

/-- C6 counterexample shows the digest comparisons are not vacuous; the
amended statement: once the count checks pass, both digest comparisons compare
the zeroed (disabled-digest) buffer against the stored ops checksum, so parse
succeeds exactly when the stored ops checksum is all zero — the value the
disabled-digest writer stores; the comparisons never consult the op contents
(only the record count) and never consult the stored footer checksum. -/
theorem C6_digest_behavior :
    (∀ (f : CowFooter) (ops : List CowOperation),
        ops.length = f.op.num_ops → ops.length * sizeofCowOperation = f.op.ops_size →
        (footerIntegrityChecks f ops = .ok () ↔ f.data.ops_checksum = zero32)) ∧
    (∀ (f : CowFooter) (ops : List CowOperation) (c : List Nat),
        footerIntegrityChecks
          { op := f.op, data := { ops_checksum := f.data.ops_checksum, footer_checksum := c } }
          ops = footerIntegrityChecks f ops) ∧
    (∀ (f : CowFooter) (ops ops2 : List CowOperation), ops.length = ops2.length →
        footerIntegrityChecks f ops = footerIntegrityChecks f ops2) := by
  refine ⟨?_, ?_, ?_⟩
  · intro f ops h1 h2
    simp only [footerIntegrityChecks]
    rw [if_neg (fun hne => hne h1), if_neg (fun hne => hne h2)]
    by_cases hc : f.data.ops_checksum = zero32
    · rw [if_neg (fun hne => hne hc.symm), if_neg (fun hne => hne hc.symm)]
      exact iff_of_true rfl hc
    · rw [if_pos (fun he => hc he.symm)]
      exact iff_of_false (fun he => Except.noConfusion he) hc
  · intro f ops c
    rfl
  · intro f ops ops2 h
    simp only [footerIntegrityChecks, h]

theorem C6_witness :
    (footerIntegrityChecks exFooterC5 [exReplace] = .ok () ↔
      exFooterC5.data.ops_checksum = zero32) ∧
    (footerIntegrityChecks exFooterC6 [exReplace] = .ok () ↔
      exFooterC6.data.ops_checksum = zero32) :=
  ⟨C6_digest_behavior.1 exFooterC5 [exReplace] (by decide) (by decide),
   C6_digest_behavior.1 exFooterC6 [exReplace] (by decide) (by decide)⟩

lemma drainAux_eq_drop (ops : List CowOperation) :
    ∀ fuel c, ops.length - c ≤ fuel →
      CowOpIter.drainAux fuel { ops := ops, cursor := c } = ops.drop c := by
  intro fuel
  induction fuel with
  | zero =>
    intro c hc
    rw [List.drop_eq_nil_of_le (by omega)]
    rfl
  | succ fuel ih =>
    intro c hc
    by_cases hdone : ops.length ≤ c
    · rw [List.drop_eq_nil_of_le hdone]
      simp [CowOpIter.drainAux, CowOpIter.Get, CowOpIter.Done, hdone]
    · have hlt : c < ops.length := by omega
      have hG : CowOpIter.Get { ops := ops, cursor := c } = some ops[c] := by
        simp [CowOpIter.Get, CowOpIter.Done, hdone, List.getElem?_eq_getElem hlt]
      have hN : CowOpIter.Next { ops := ops, cursor := c } =
          some { ops := ops, cursor := c + 1 } := by
        simp [CowOpIter.Next, CowOpIter.Done, hdone]
      rw [List.drop_eq_getElem_cons hlt]
      simp only [CowOpIter.drainAux, hG, hN]
      exact congrArg (List.cons ops[c]) (ih (c + 1) (by omega))

lemma rdrainAux_eq_drop (ops : List CowOperation) :
    ∀ fuel c, ops.length - c ≤ fuel →
      CowOpReverseIter.drainAux fuel { ops := ops, cursor := c } = ops.reverse.drop c := by
  intro fuel
  induction fuel with
  | zero =>
    intro c hc
    rw [List.drop_eq_nil_of_le (by rw [List.length_reverse]; omega)]
    rfl
  | succ fuel ih =>
    intro c hc
    by_cases hdone : ops.length ≤ c
    · rw [List.drop_eq_nil_of_le (by rw [List.length_reverse]; omega)]
      simp [CowOpReverseIter.drainAux, CowOpReverseIter.Get, CowOpReverseIter.Done, hdone]
    · have hlt : c < ops.length := by omega
      have hrev : c < ops.reverse.length := by rw [List.length_reverse]; omega
      have hG : CowOpReverseIter.Get { ops := ops, cursor := c } = some ops.reverse[c] := by
        simp only [CowOpReverseIter.Get, CowOpReverseIter.Done]
        rw [if_neg (by simpa using hdone)]
        rw [List.getElem?_eq_getElem (show ops.length - 1 - c < ops.length by omega)]
        rw [List.getElem_reverse hrev]
      have hN : CowOpReverseIter.Next { ops := ops, cursor := c } =
          some { ops := ops, cursor := c + 1 } := by
        simp [CowOpReverseIter.Next, CowOpReverseIter.Done, hdone]
      rw [List.drop_eq_getElem_cons hrev]
      simp only [CowOpReverseIter.drainAux, hG, hN]
      exact congrArg (List.cons ops.reverse[c]) (ih (c + 1) (by omega))

/-- C10: for both iterators, Get and Next require Done to be false — violating
the precondition is the checked CHECK abort, not an out-of-bounds access — and
under that precondition Get returns the element the cursor denotes and Next
advances the cursor by exactly one; both iterator factories share the parsed
sequence without copying it, and a full drain visits exactly the parsed
sequence in on-disk order (forward) or its exact reverse (reverse). -/
theorem C10_iterators :
    (∀ it : CowOpIter, it.Done = false ↔ it.cursor < it.ops.length) ∧
    (∀ it : CowOpIter, it.Done = false →
        it.Get = it.ops[it.cursor]? ∧ (it.ops[it.cursor]?).isSome = true ∧
        it.Next = some { ops := it.ops, cursor := it.cursor + 1 }) ∧
    (∀ it : CowOpIter, it.Done = true → it.Get = none ∧ it.Next = none) ∧
    (∀ rit : CowOpReverseIter, rit.Done = false ↔ rit.cursor < rit.ops.length) ∧
    (∀ rit : CowOpReverseIter, rit.Done = false →
        rit.Get = rit.ops[rit.ops.length - 1 - rit.cursor]? ∧ rit.Get.isSome = true ∧
        rit.Next = some { ops := rit.ops, cursor := rit.cursor + 1 }) ∧
    (∀ rit : CowOpReverseIter, rit.Done = true → rit.Get = none ∧ rit.Next = none) ∧
    (∀ res : ParseResult,
        (CowReader.GetOpIter res).ops = res.ops ∧
        (CowReader.GetRevOpIter res).ops = res.ops ∧
        (CowReader.GetOpIter res).drain = res.ops ∧
        (CowReader.GetRevOpIter res).drain = res.ops.reverse) := by
  refine ⟨?_, ?_, ?_, ?_, ?_, ?_, ?_⟩
  · intro it
    simp [CowOpIter.Done, Nat.not_le]
  · intro it hd
    have hlt : it.cursor < it.ops.length := by
      simpa [CowOpIter.Done, Nat.not_le] using hd
    refine ⟨?_, ?_, ?_⟩
    · simp [CowOpIter.Get, hd]
    · rw [List.getElem?_eq_getElem hlt]
      rfl
    · simp [CowOpIter.Next, hd]
  · intro it hd
    constructor
    · simp [CowOpIter.Get, hd]
    · simp [CowOpIter.Next, hd]
  · intro rit
    simp [CowOpReverseIter.Done, Nat.not_le]
  · intro rit hd
    have hlt : rit.cursor < rit.ops.length := by
      simpa [CowOpReverseIter.Done, Nat.not_le] using hd
    refine ⟨?_, ?_, ?_⟩
    · simp [CowOpReverseIter.Get, hd]
    · rw [show rit.Get = rit.ops[rit.ops.length - 1 - rit.cursor]? by
        simp [CowOpReverseIter.Get, hd]]
      rw [List.getElem?_eq_getElem (show rit.ops.length - 1 - rit.cursor < rit.ops.length by
        omega)]
      rfl
    · simp [CowOpReverseIter.Next, hd]
  · intro rit hd
    constructor
    · simp [CowOpReverseIter.Get, hd]
    · simp [CowOpReverseIter.Next, hd]
  · intro res
    refine ⟨rfl, rfl, ?_, ?_⟩
    · show CowOpIter.drainAux res.ops.length { ops := res.ops, cursor := 0 } = res.ops
      rw [drainAux_eq_drop res.ops res.ops.length 0 (by omega)]
      exact List.drop_zero res.ops
    · show CowOpReverseIter.drainAux res.ops.length { ops := res.ops, cursor := 0 } =
        res.ops.reverse
      rw [rdrainAux_eq_drop res.ops res.ops.length 0 (by omega)]
      exact List.drop_zero res.ops.reverse

theorem C10_witness :
    ((⟨[exCopy, exLabel7], 0⟩ : CowOpIter).Get =
        ([exCopy, exLabel7] : List CowOperation)[0]? ∧
      (([exCopy, exLabel7] : List CowOperation)[0]?).isSome = true ∧
      (⟨[exCopy, exLabel7], 0⟩ : CowOpIter).Next = some ⟨[exCopy, exLabel7], 0 + 1⟩) ∧
    ((CowReader.GetOpIter exResC5).ops = exResC5.ops ∧
      (CowReader.GetRevOpIter exResC5).ops = exResC5.ops ∧
      (CowReader.GetOpIter exResC5).drain = exResC5.ops ∧
      (CowReader.GetRevOpIter exResC5).drain = exResC5.ops.reverse) :=
  ⟨C10_iterators.2.1 ⟨[exCopy, exLabel7], 0⟩ (by decide),
   C10_iterators.2.2.2.2.2.2 exResC5⟩

lemma isMetadataOp_iff (r : CowOperation) :
    isMetadataOp r = true ↔ (r.type = kCowLabelOp ∨ r.type = kCowFooterOp) := by
  simp [isMetadataOp]

lemma countReal_nil : countReal [] = 0 := rfl

lemma countReal_cons_meta (r : CowOperation) (l : List CowOperation)
    (h : isMetadataOp r = true) : countReal (r :: l) = countReal l := by
  simp [countReal, List.filter_cons, h]

lemma countReal_cons_real (r : CowOperation) (l : List CowOperation)
    (h : isMetadataOp r = false) : countReal (r :: l) = countReal l + 1 := by
  simp [countReal, List.filter_cons, h]

lemma countReal_append (a b : List CowOperation) :
    countReal (a ++ b) = countReal a + countReal b := by
  simp [countReal, List.filter_append]

lemma countReal_add_countMeta (l : List CowOperation) :
    countReal l + countMeta l = l.length := by
  induction l with
  | nil => rfl
  | cons r rest ih =>
    by_cases hm : isMetadataOp r = true
    · simp only [countMeta, List.filter_cons, hm, if_pos, countReal_cons_meta r rest hm,
        List.length_cons]
      simp only [countMeta] at ih
      omega
    · have hm' : isMetadataOp r = false := by
        cases h : isMetadataOp r
        · rfl
        · exact absurd h hm
      simp only [countMeta, List.filter_cons, hm', countReal_cons_real r rest hm',
        List.length_cons, Bool.false_eq_true, if_false]
      simp only [countMeta] at ih
      omega

lemma trimWalk_some (ops : List CowOperation) :
    ∀ k acc, k ≤ countReal ops →
      trimWalk ops k acc = some (acc + (shortestRealRunLen ops k - k)) ∧
      k ≤ shortestRealRunLen ops k ∧
      shortestRealRunLen ops k ≤ ops.length ∧
      countReal (ops.take (shortestRealRunLen ops k)) = k := by
  induction ops with
  | nil =>
    intro k acc hk
    rw [countReal_nil] at hk
    have hk0 : k = 0 := by omega
    subst hk0
    exact ⟨rfl, Nat.le_refl 0, Nat.zero_le 0, rfl⟩
  | cons r rest ih =>
    intro k acc hk
    cases k with
    | zero => exact ⟨rfl, Nat.zero_le _, Nat.zero_le _, rfl⟩
    | succ k' =>
      by_cases hm : (r.type = kCowLabelOp ∨ r.type = kCowFooterOp)
      · have hmb : isMetadataOp r = true := (isMetadataOp_iff r).mpr hm
        have hcr : countReal (r :: rest) = countReal rest := countReal_cons_meta r rest hmb
        rw [hcr] at hk
        obtain ⟨ih1, ih2, ih3, ih4⟩ := ih (k' + 1) (acc + 1) hk
        have hrun : shortestRealRunLen (r :: rest) (k' + 1) =
            1 + shortestRealRunLen rest (k' + 1) := by
          simp [shortestRealRunLen, hmb]
        refine ⟨?_, ?_, ?_, ?_⟩
        · show trimWalk (r :: rest) (Nat.succ k') acc = _
          rw [trimWalk, if_pos hm, ih1, hrun]
          congr 1
          omega
        · rw [hrun]; omega
        · rw [hrun, List.length_cons]; omega
        · rw [hrun, show 1 + shortestRealRunLen rest (k' + 1) =
            shortestRealRunLen rest (k' + 1) + 1 by omega, List.take_succ_cons,
            countReal_cons_meta r _ hmb]
          exact ih4
      · have hmb : isMetadataOp r = false := by
          cases h : isMetadataOp r
          · rfl
          · exact absurd ((isMetadataOp_iff r).mp h) hm
        have hcr : countReal (r :: rest) = countReal rest + 1 := countReal_cons_real r rest hmb
        rw [hcr] at hk
        have hk' : k' ≤ countReal rest := by omega
        obtain ⟨ih1, ih2, ih3, ih4⟩ := ih k' acc hk'
        have hrun : shortestRealRunLen (r :: rest) (k' + 1) =
            1 + shortestRealRunLen rest k' := by
          simp [shortestRealRunLen, hmb]
        refine ⟨?_, ?_, ?_, ?_⟩
        · show trimWalk (r :: rest) (Nat.succ k') acc = _
          rw [trimWalk, if_neg hm, ih1, hrun]
          congr 1
          omega
        · rw [hrun]; omega
        · rw [hrun, List.length_cons]; omega
        · rw [hrun, show 1 + shortestRealRunLen rest k' = shortestRealRunLen rest k' + 1
            by omega, List.take_succ_cons, countReal_cons_real r _ hmb, ih4]

lemma shortestRealRunLen_minimal (ops : List CowOperation) :
    ∀ k j, 0 < k → k ≤ countReal ops → j < shortestRealRunLen ops k →
      countReal (ops.take j) < k := by
  induction ops with
  | nil =>
    intro k j hk hkc hj
    rw [countReal_nil] at hkc
    omega
  | cons r rest ih =>
    intro k j hk hkc hj
    cases k with
    | zero => omega
    | succ k' =>
      cases j with
      | zero =>
        rw [List.take_zero, countReal_nil]
        omega
      | succ j' =>
        by_cases hm : (r.type = kCowLabelOp ∨ r.type = kCowFooterOp)
        · have hmb : isMetadataOp r = true := (isMetadataOp_iff r).mpr hm
          have hrun : shortestRealRunLen (r :: rest) (k' + 1) =
              1 + shortestRealRunLen rest (k' + 1) := by
            simp [shortestRealRunLen, hmb]
          rw [hrun] at hj
          rw [List.take_succ_cons, countReal_cons_meta r _ hmb]
          have hkc' : k' + 1 ≤ countReal rest := by
            rw [countReal_cons_meta r rest hmb] at hkc
            exact hkc
          exact ih (k' + 1) j' hk hkc' (by omega)
        · have hmb : isMetadataOp r = false := by
            cases h : isMetadataOp r
            · rfl
            · exact absurd ((isMetadataOp_iff r).mp h) hm
          have hrun : shortestRealRunLen (r :: rest) (k' + 1) =
              1 + shortestRealRunLen rest k' := by
            simp [shortestRealRunLen, hmb]
          rw [hrun] at hj
          rw [List.take_succ_cons, countReal_cons_real r _ hmb]
          cases k' with
          | zero =>
            have : shortestRealRunLen rest 0 = 0 := by
              cases rest <;> rfl
            omega
          | succ k2 =>
            have hkc' : k2 + 1 ≤ countReal rest := by
              rw [countReal_cons_real r rest hmb] at hkc
              omega
            have := ih (k2 + 1) j' (by omega) hkc' (by omega)
            omega

/-- C4: with num_merge_ops = k positive and the parsed sequence holding at
least k real operations, trimming removes exactly the shortest prefix
containing k real operations (every proper subprefix holds fewer than k real
operations, and the prefix carries all Label/Footer metadata records
interleaved in it); the returned sequence is the remaining suffix of the parsed
sequence, its length is the original length minus (k plus the number of
metadata records in the removed prefix), and the removed prefix - metadata
records included - is gone entirely. -/
theorem C4_merge_trim (ops : List CowOperation) (k : Nat) (hk : 0 < k)
    (hkc : k ≤ countReal ops) :
    trimOps k ops = .ok (ops.drop (shortestRealRunLen ops k)) ∧
    countReal (ops.take (shortestRealRunLen ops k)) = k ∧
    (∀ j, j < shortestRealRunLen ops k → countReal (ops.take j) < k) ∧
    ops.take (shortestRealRunLen ops k) ++ ops.drop (shortestRealRunLen ops k) = ops ∧
    shortestRealRunLen ops k = k + countMeta (ops.take (shortestRealRunLen ops k)) ∧
    (ops.drop (shortestRealRunLen ops k)).length =
      ops.length - (k + countMeta (ops.take (shortestRealRunLen ops k))) ∧
    countReal (ops.drop (shortestRealRunLen ops k)) = countReal ops - k := by
  obtain ⟨hwalk, hle, hlen, hcount⟩ := trimWalk_some ops k 0 hkc
  have hlenle : k ≤ ops.length := by
    have hfle : countReal ops ≤ ops.length := by
      have := List.length_filter_le (fun r => !(isMetadataOp r)) ops
      simpa [countReal] using this
    omega
  have hn : shortestRealRunLen ops k =
      k + countMeta (ops.take (shortestRealRunLen ops k)) := by
    have hpart := countReal_add_countMeta (ops.take (shortestRealRunLen ops k))
    rw [hcount, List.length_take, Nat.min_eq_left hlen] at hpart
    omega
  have hreal : countReal (ops.drop (shortestRealRunLen ops k)) = countReal ops - k := by
    have happ := countReal_append (ops.take (shortestRealRunLen ops k))
      (ops.drop (shortestRealRunLen ops k))
    rw [List.take_append_drop, hcount] at happ
    omega
  refine ⟨?_, hcount, fun j hj => shortestRealRunLen_minimal ops k j hk hkc hj,
    List.take_append_drop _ ops, hn, ?_, hreal⟩
  · unfold trimOps
    rw [if_neg (by omega : ¬k = 0), if_neg (by omega : ¬ops.length < k)]
    rw [hwalk]
    show Except.ok (ops.drop (k + (0 + (shortestRealRunLen ops k - k)))) = _
    congr 2
    omega
  · rw [List.length_drop]
    omega

theorem C4_witness :
    trimOps 2 exOpsC4 = .ok (exOpsC4.drop (shortestRealRunLen exOpsC4 2)) :=
  (C4_merge_trim exOpsC4 2 (by decide) (by decide)).1

lemma lastLabelIn_concat_label (l : List CowOperation) (r : CowOperation)
    (h : r.type = kCowLabelOp) : lastLabelIn (l ++ [r]) = some r.source := by
  simp [lastLabelIn, List.filter_append, List.filter_cons, h, List.getLast?_concat]

lemma lastLabelIn_concat_other (l : List CowOperation) (r : CowOperation)
    (h : ¬r.type = kCowLabelOp) : lastLabelIn (l ++ [r]) = lastLabelIn l := by
  simp [lastLabelIn, List.filter_append, List.filter_cons, h]

lemma lastLabelIn_dropLast_none (l : List CowOperation) (h : lastLabelIn l = none) :
    lastLabelIn l.dropLast = none := by
  have h1 : (l.filter fun r => r.type == kCowLabelOp).getLast? = none := by
    unfold lastLabelIn at h
    exact Option.map_eq_none'.mp h
  have h2 : (l.filter fun r => r.type == kCowLabelOp) = [] :=
    List.getLast?_eq_none_iff.mp h1
  have h3 : (l.dropLast.filter fun r => r.type == kCowLabelOp) = [] := by
    have hsub := (List.dropLast_sublist l).filter (fun r => r.type == kCowLabelOp)
    rw [h2] at hsub
    exact List.sublist_nil.mp hsub
  unfold lastLabelIn
  rw [h3]
  rfl

lemma scanBody_step (ri : CowOperation → CowFooterOperation) (d : CowFooterData)
    (dr : Bool) (r : CowOperation) (st : ScanState)
    (hf : st.has_footer = false)
    (hp : st.next_last_label = lastLabelIn st.ops)
    (hc : committedOf st = lastLabelIn st.ops.dropLast) :
    (scanBody ri d dr r st).1.ops = st.ops ++ [r] ∧
    (scanBody ri d dr r st).1.next_last_label = lastLabelIn (st.ops ++ [r]) ∧
    committedOf (scanBody ri d dr r st).1 = lastLabelIn st.ops ∧
    ((scanBody ri d dr r st).2 = false → (scanBody ri d dr r st).1.has_footer = false) := by
  have hne : ¬(kCowFooterOp = kCowLabelOp) := by decide
  cases hnl : st.next_last_label with
  | none =>
    have hlnone : lastLabelIn st.ops = none := by rw [← hp, hnl]
    have hcnone : committedOf st = none := by
      rw [hc]
      exact lastLabelIn_dropLast_none st.ops hlnone
    have hhl : st.has_last_label = false := by
      cases hx : st.has_last_label
      · rfl
      · rw [committedOf, if_pos hx] at hcnone
        exact Option.noConfusion hcnone
    by_cases hlab : r.type = kCowLabelOp
    · simp [scanBody, committedOf, hnl, hlab, hf, hhl,
        lastLabelIn_concat_label st.ops r hlab, hlnone]
    · by_cases hfoot : r.type = kCowFooterOp
      · cases dr
        · simp [scanBody, committedOf, hne, hnl, hlab, hfoot, hf, hhl,
            lastLabelIn_concat_other st.ops r hlab, hlnone]
        · simp [scanBody, committedOf, hne, hnl, hlab, hfoot, hf, hhl,
            lastLabelIn_concat_other st.ops r hlab, hlnone]
      · simp [scanBody, committedOf, hne, hnl, hlab, hfoot, hf, hhl,
          lastLabelIn_concat_other st.ops r hlab, hlnone]
  | some v =>
    have hlv : lastLabelIn st.ops = some v := by rw [← hp, hnl]
    by_cases hlab : r.type = kCowLabelOp
    · simp [scanBody, committedOf, hnl, hlab, hf,
        lastLabelIn_concat_label st.ops r hlab, hlv]
    · by_cases hfoot : r.type = kCowFooterOp
      · cases dr
        · simp [scanBody, committedOf, hne, hnl, hlab, hfoot, hf,
            lastLabelIn_concat_other st.ops r hlab, hlv]
        · simp [scanBody, committedOf, hne, hnl, hlab, hfoot, hf,
            lastLabelIn_concat_other st.ops r hlab, hlv]
      · simp [scanBody, committedOf, hne, hnl, hlab, hfoot, hf,
          lastLabelIn_concat_other st.ops r hlab, hlv]

lemma scanOps_inv (ri : CowOperation → CowFooterOperation) (d : CowFooterData)
    (fdSize lp : Nat) :
    ∀ (recs : List CowOperation) (pos : Nat) (st st' : ScanState),
      st.has_footer = false →
      st.next_last_label = lastLabelIn st.ops →
      committedOf st = lastLabelIn st.ops.dropLast →
      scanOps ri d fdSize lp recs pos st = .ok st' →
      st'.next_last_label = lastLabelIn st'.ops ∧
      committedOf st' = lastLabelIn st'.ops.dropLast := by
  intro recs
  induction recs with
  | nil =>
    intro pos st st' hf hp hc hrun
    unfold scanOps at hrun
    split at hrun
    · exact Except.noConfusion hrun
    · injection hrun with hrun
      subst hrun
      exact ⟨hp, hc⟩
  | cons r rest ih =>
    intro pos st st' hf hp hc hrun
    simp only [scanOps] at hrun
    split at hrun
    · obtain ⟨hops, hpend, hcomm, hfnext⟩ := scanBody_step ri d
        (decide (pos + sizeofCowOperation + GetNextOpOffset r + sizeofCowFooterData ≤ fdSize))
        r st hf hp hc
      split at hrun
      · injection hrun with hrun
        subst hrun
        constructor
        · rw [hops, hpend]
        · rw [hops, List.dropLast_concat]
          exact hcomm
      · rename_i hbrk
        have hbrk' : (scanBody ri d
            (decide (pos + sizeofCowOperation + GetNextOpOffset r + sizeofCowFooterData ≤
              fdSize)) r st).2 = false := by
          cases hx : (scanBody ri d
              (decide (pos + sizeofCowOperation + GetNextOpOffset r + sizeofCowFooterData ≤
                fdSize)) r st).2
          · rfl
          · exact absurd hx hbrk
        exact ih (pos + sizeofCowOperation + GetNextOpOffset r) _ st'
          (hfnext hbrk')
          (by rw [hpend, hops])
          (by rw [hops, List.dropLast_concat]; exact hcomm)
          hrun
    · injection hrun with hrun
      subst hrun
      exact ⟨hp, hc⟩

/-- C1: on a file whose trailing footer region does not decode as a valid
footer, the committed watermark after the scan is the source value of the most
recent Label record that was followed by at least one more successfully read
record — absent when no such Label exists, in particular when the only Label is
the last record read; with a trusted footer present a Label record's value
becomes the committed watermark immediately as its loop iteration runs; a
readable inline footer promotes the pending label and stops the scan; and
last_label() reports exactly the scan's committed watermark. -/
theorem C1_label_watermark :
    (∀ (ri : CowOperation → CowFooterOperation) (d : CowFooterData) (fdSize lp : Nat)
        (recs : List CowOperation) (f0 : CowFooter) (st' : ScanState),
        scanOps ri d fdSize lp recs sizeofCowHeader (initScanState f0 false) = .ok st' →
        committedOf st' = lastLabelIn st'.ops.dropLast) ∧
    (∀ (ri : CowOperation → CowFooterOperation) (d : CowFooterData) (fdSize lp : Nat)
        (recs : List CowOperation) (f0 : CowFooter) (st' : ScanState)
        (rs : List CowOperation) (lab : CowOperation),
        scanOps ri d fdSize lp recs sizeofCowHeader (initScanState f0 false) = .ok st' →
        st'.ops = rs ++ [lab] → lab.type = kCowLabelOp → lastLabelIn rs = none →
        st'.has_last_label = false) ∧
    (∀ (ri : CowOperation → CowFooterOperation) (d : CowFooterData) (dr : Bool)
        (r : CowOperation) (st : ScanState),
        st.has_footer = true → r.type = kCowLabelOp →
        (scanBody ri d dr r st).1.has_last_label = true ∧
        (scanBody ri d dr r st).1.last_label = r.source) ∧
    (∀ (ri : CowOperation → CowFooterOperation) (d : CowFooterData)
        (r : CowOperation) (st : ScanState) (v : Nat),
        r.type = kCowFooterOp → st.next_last_label = some v →
        (scanBody ri d true r st).1.has_footer = true ∧
        (scanBody ri d true r st).1.has_last_label = true ∧
        (scanBody ri d true r st).1.last_label = v ∧
        (scanBody ri d true r st).2 = true) ∧
    (∀ (ri : CowOperation → CowFooterOperation) (file : CowFileModel) (hdr : CowHeader)
        (f0 : CowFooter) (hf : Bool) (st : ScanState) (res : ParseResult),
        scanOps ri file.inlineData file.fdSize (CowReader.lastPosOf file.fdSize hf)
          file.recs sizeofCowHeader (initScanState f0 hf) = .ok st →
        CowReader.ParseOps ri file hdr f0 hf = .ok res →
        CowReader.GetLastLabel res = committedOf st) := by
  refine ⟨?_, ?_, ?_, ?_, ?_⟩
  · intro ri d fdSize lp recs f0 st' hrun
    exact (scanOps_inv ri d fdSize lp recs sizeofCowHeader (initScanState f0 false) st'
      rfl rfl rfl hrun).2
  · intro ri d fdSize lp recs f0 st' rs lab hrun hops hlab hnone
    have hcom := (scanOps_inv ri d fdSize lp recs sizeofCowHeader (initScanState f0 false)
      st' rfl rfl rfl hrun).2
    rw [hops, List.dropLast_concat, hnone] at hcom
    cases hx : st'.has_last_label
    · rfl
    · rw [committedOf, if_pos hx] at hcom
      exact Option.noConfusion hcom
  · intro ri d dr r st hfc hlab
    cases hnl : st.next_last_label <;> simp [scanBody, hnl, hlab, hfc]
  · intro ri d r st v hfoot hnl
    have hne : ¬(kCowFooterOp = kCowLabelOp) := by decide
    refine ⟨?_, ?_, ?_, ?_⟩ <;> simp [scanBody, hnl, hfoot, hne]
  · intro ri file hdr f0 hf st res hscan hres
    unfold CowReader.ParseOps at hres
    split at hres
    · exact Except.noConfusion hres
    · rename_i st0 heq
      rw [hscan] at heq
      have hst0 : st = st0 := Except.ok.inj heq
      subst hst0
      split at hres
      · exact Except.noConfusion hres
      · split at hres
        · exact Except.noConfusion hres
        · injection hres with hres
          subst hres
          rfl

theorem C1_witness :
    (committedOf exScanOut = lastLabelIn exScanOut.ops.dropLast) ∧
    (exScanOut.has_last_label = false) ∧
    ((scanBody exRi1 exZData false exLabel7 exStFooter).1.has_last_label = true ∧
     (scanBody exRi1 exZData false exLabel7 exStFooter).1.last_label = exLabel7.source) ∧
    ((scanBody exRi1 exZData true exFooterRec exScanOut).1.has_footer = true ∧
     (scanBody exRi1 exZData true exFooterRec exScanOut).1.has_last_label = true ∧
     (scanBody exRi1 exZData true exFooterRec exScanOut).1.last_label = 7 ∧
     (scanBody exRi1 exZData true exFooterRec exScanOut).2 = true) ∧
    (CowReader.GetLastLabel exResC5 = committedOf exScanC5) :=
  ⟨C1_label_watermark.1 exRi1 exZData 94 72 [exCopy, exLabel7] exDummyFooter exScanOut
      (by decide),
   C1_label_watermark.2.1 exRi1 exZData 94 72 [exCopy, exLabel7] exDummyFooter exScanOut
      [exCopy] exLabel7 (by decide) (by decide) (by decide) (by decide),
   C1_label_watermark.2.2.1 exRi1 exZData false exLabel7 exStFooter (by decide) (by decide),
   C1_label_watermark.2.2.2.1 exRi1 exZData exFooterRec exScanOut 7 (by decide) (by decide),
   C1_label_watermark.2.2.2.2 exRi1 exFileC5 exHeader exFooterC5 true exScanC5 exResC5
      (by decide) (by decide)⟩
